import Mathlib

/-!
Verification development for the libsql-studio CLI relay core.

The TypeScript source has two transport variants sharing one
execution-and-serialization contract:

* `src/connection.ts` — the socket (WebSocket/hrana-style) variant:
  `MessageHandler` with `push`/`handleMessage`/`handleAuth`/
  `handleExecuteRequest`/`prepareResult` and `getValueType`.
* `src/studio.ts` — the stateless HTTP variant: the `POST /query`
  handler, `convertSqliteType` and `transformRawResult`.

JavaScript values appearing in result rows are modelled by `JsValue`;
machine numbers are modelled by `Int` (no floating point is needed by
any claim).  Fallible computations return `Except`.  The asynchronous
message pipeline of the socket variant is modelled by a small event-loop
semantics further below.
-/

namespace SqlStudio

/-- A JavaScript runtime value as it can appear in a result row.
`vnum` covers `typeof value === "number"`, `vstr` covers strings,
`vnull` is `null`, and `vother` stands for any other runtime value
(e.g. a binary payload), which the source code only ever passes to
`getValueType`'s fallback branch. -/
inductive JsValue where
  | vstr (s : String)
  | vnum (q : Int)
  | vnull
  | vother
deriving DecidableEq, Repr, Inhabited

/-- From `src/connection.ts`:
`getValueType(value)` returns `"text"` for strings, `"float"` for
numbers, `"null"` for `null`, and `"text"` for anything else. -/
def getValueType : JsValue → String
  | .vstr _ => "text"
  | .vnum _ => "float"
  | .vnull => "null"
  | .vother => "text"

/-- The engine's result set (`ResultSet` of the client library), as both
variants consume it: ordered column names, aligned declared-type strings
(`none` models `undefined`/`null`), rows as positional value sequences,
a rows-affected count and an optional last-inserted row id (`none`
models `undefined`; the id itself is a JS bigint, modelled by `Int`). -/
structure ResultSetModel where
  columns : List String
  columnTypes : List (Option String)
  rows : List (List JsValue)
  rowsAffected : Nat
  lastInsertRowid : Option Int
deriving DecidableEq, Repr

/-! ## Type Mapper (`src/studio.ts`) -/

/-- `ColumnType` enum of `src/studio.ts`: TEXT = 1, INTEGER = 2,
REAL = 3, BLOB = 4. -/
inductive ColumnType where
  | TEXT
  | INTEGER
  | REAL
  | BLOB
deriving DecidableEq, Repr

/-- Substring containment on character lists: some position of the
second list starts with the first list.  This is JavaScript
`String.prototype.includes` restricted to the ASCII patterns the source
uses. -/
def charsContains (pat : List Char) : List Char → Bool
  | [] => pat.isEmpty
  | c :: rest => pat.isPrefixOf (c :: rest) || charsContains pat rest

/-- `s.includes(pat)` of JavaScript. -/
def strContains (s pat : String) : Bool :=
  charsContains pat.data s.data

/-- `s.toUpperCase()` of JavaScript, character by character (the
declared types matched against are ASCII, where this agrees with the
JavaScript locale-independent mapping). -/
def jsToUpper (s : String) : String :=
  ⟨s.data.map Char.toUpper⟩

/-- From `src/studio.ts`:

`convertSqliteType(type)` — `undefined` declared type gives BLOB;
otherwise the declared type is uppercased and matched by substring:
CHAR/TEXT/CLOB/STRING give TEXT, then INT gives INTEGER, then BLOB gives
BLOB, then REAL/DOUBLE/FLOAT give REAL, and anything else gives TEXT. -/
def convertSqliteType (type : Option String) : ColumnType :=
  match type with
  | none => ColumnType.BLOB
  | some t0 =>
    let t := jsToUpper t0
    if strContains t "CHAR" then ColumnType.TEXT
    else if strContains t "TEXT" then ColumnType.TEXT
    else if strContains t "CLOB" then ColumnType.TEXT
    else if strContains t "STRING" then ColumnType.TEXT
    else if strContains t "INT" then ColumnType.INTEGER
    else if strContains t "BLOB" then ColumnType.BLOB
    else if strContains t "REAL" || strContains t "DOUBLE" || strContains t "FLOAT"
      then ColumnType.REAL
    else ColumnType.TEXT

/-! ## Column-name deduplication (`transformRawResult` in `src/studio.ts`) -/

/-- The rename candidate built by the template literal
`` __${colName}_${i} `` of the source (`toString` of a natural number is
`Nat.repr`). -/
def suffixName (colName : String) (i : Nat) : String :=
  "__" ++ colName ++ "_" ++ Nat.repr i

/-- The collision-resolution loop of `transformRawResult`:

`for (let i = 0; i < 20; i++) { if (!headerSet.has(rename)) break; rename = __${colName}_${i}; }`

`renameFrom set colName fuel i cur` is the loop with counter `i`,
current candidate `cur` and `fuel = 20 - i` remaining iterations (the
guard `i < 20` holds exactly while the fuel is positive); the set is
modelled as the list of names added so far (`has` is membership). -/
def renameFrom (headerSet : List String) (colName : String) :
    Nat → Nat → String → String
  | 0, _, cur => cur
  | fuel + 1, i, cur =>
    if cur ∈ headerSet then
      renameFrom headerSet colName fuel (i + 1) (suffixName colName i)
    else cur

/-- The loop entered with `rename = colName`, `i = 0` and its 20
iterations of fuel. -/
def renameLoop (headerSet : List String) (colName : String) : String :=
  renameFrom headerSet colName 20 0 colName

/-- One entry of the wire schema (`ResultHeader` in `src/studio.ts`). -/
structure ResultHeader where
  name : String
  displayName : String
  originalType : Option String
  type : ColumnType
deriving DecidableEq, Repr

/-- The `raw.columns.map((colName, colIdx) => ...)` body of
`transformRawResult`, which threads the mutable `headerSet` through the
columns in order: resolve the collision, add the resolved name to the
set, and emit the header entry. -/
def buildHeadersGo (headerSet : List String) :
    List (String × Option String) → List ResultHeader
  | [] => []
  | (colName, colType) :: rest =>
    let rename := renameLoop headerSet colName
    { name := rename
      displayName := colName
      originalType := colType
      type := convertSqliteType colType } ::
      buildHeadersGo (headerSet ++ [rename]) rest

/-- Pair each column name with `raw.columnTypes[colIdx]`
(`undefined`, i.e. `none`, past the end, as JavaScript indexing gives). -/
def colTypePairs (raw : ResultSetModel) : List (String × Option String) :=
  raw.columns.enum.map (fun p => (p.2, raw.columnTypes.getD p.1 none))

/-- The `headers` value computed by `transformRawResult`. -/
def headersOf (raw : ResultSetModel) : List ResultHeader :=
  buildHeadersGo [] (colTypePairs raw)

/-- JavaScript object assignment `a[k] = v` on an object modelled as an
insertion-ordered association list: an existing key keeps its position
and gets the new value, a new key is appended. -/
def objSet : List (String × JsValue) → String → JsValue → List (String × JsValue)
  | [], k, v => [(k, v)]
  | (k0, v0) :: rest, k, v =>
    if k0 = k then (k0, v) :: rest else (k0, v0) :: objSet rest k v

/-- `stat` of the HTTP `Result`. -/
structure HttpStat where
  rowsAffected : Nat
  rowsRead : Option Nat
  rowsWritten : Option Nat
  queryDurationMs : Option Nat
deriving DecidableEq, Repr

/-- The HTTP `Result` of `src/studio.ts`: rows as objects keyed by the
deduplicated column name, the header list, statistics, and
`lastInsertRowid` (`none` models the key being absent; `Number()`
applied to the engine's bigint is modelled as the identity on `Int`). -/
structure HttpResult where
  rows : List (List (String × JsValue))
  headers : List ResultHeader
  stat : HttpStat
  lastInsertRowid : Option Int
deriving DecidableEq, Repr

/-- `transformRawResult` of `src/studio.ts`: build the deduplicated
headers, reshape each row into an object mapping the deduplicated name
of column `idx` to the row's positional value `r[idx]`, attach the
statistics (`rowsRead: null`, `rowsWritten: null`,
`queryDurationMs: 0`), and convert `lastInsertRowid` to a number unless
it is `undefined`. -/
def transformRawResult (raw : ResultSetModel) : HttpResult :=
  let headers := headersOf raw
  { rows := raw.rows.map (fun r =>
      headers.enum.foldl (fun a p => objSet a p.2.name (r.getD p.1 .vother)) [])
    headers := headers
    stat := { rowsAffected := raw.rowsAffected
              rowsRead := none
              rowsWritten := none
              queryDurationMs := some 0 }
    lastInsertRowid := raw.lastInsertRowid }

/-! ## Socket variant (`src/connection.ts`) -/

/-- A positional argument of an execute statement: `{type, value}`. -/
structure TaggedArg where
  type : String
  value : JsValue
deriving DecidableEq, Repr

/-- `stmt` of `RequestExecuteMessage`: SQL text, tagged positional
arguments, named arguments (opaque to the handler) and the `want_rows`
flag. -/
structure Stmt where
  sql : String
  args : List TaggedArg
  named_args : List JsValue
  want_rows : Bool
deriving DecidableEq, Repr

/-- `RequestMessageBody` of `src/connection.ts`. -/
inductive RequestBody where
  | execute (stream_id : Nat) (stmt : Stmt)
  | open_stream (stream_id : Nat)
  | close_stream (stream_id : Nat)
deriving DecidableEq, Repr

/-- `Message` of `src/connection.ts`: a handshake or a request tagged
with a caller-chosen request id. -/
inductive Message where
  | hello (jwt : String)
  | request (request_id : Nat) (body : RequestBody)
deriving DecidableEq, Repr

/-- One column descriptor of the socket wire result (`cols` entries). -/
structure SocketCol where
  name : String
  decltype : Option String
deriving DecidableEq, Repr

/-- One tagged cell of a serialized socket row. -/
structure SocketCell where
  type : String
  value : JsValue
deriving DecidableEq, Repr, Inhabited

/-- The `result` object built by `prepareResult`: `last_insert_rowid`
is a decimal string or `null` (modelled by `Option String`). -/
structure SocketResult where
  cols : List SocketCol
  rows : List (List SocketCell)
  last_insert_rowid : Option String
  affected_row_count : Nat
deriving DecidableEq, Repr

/-- `row[col]` of the source: the serializer reads row values by column
NAME, not by position.  The `Row` objects are built by the client
library (external to this repository), which installs each column's
value under its name and skips a name that is already present, so the
FIRST column with a given name wins; a name that is no column reads as
`undefined` (only reachable on malformed result sets, modelled by
`vother`, which tags as "text" exactly like `undefined` would). -/
def rowLookup : List String → List JsValue → String → JsValue
  | c :: cs, v :: vs, name => if c = name then v else rowLookup cs vs name
  | _, _, _ => .vother

/-- One serialized socket row:
`r.columns.map((col) => ({type: getValueType(row[col]), value: row[col]}))`. -/
def serializeRow (columns : List String) (row : List JsValue) : List SocketCell :=
  columns.map (fun col =>
    { type := getValueType (rowLookup columns row col)
      value := rowLookup columns row col })

/-- The `result` object of `prepareResult` in `src/connection.ts`:
columns paired with `r.columnTypes[colIdx]`, rows serialized by
name-lookup with tagged cells, `last_insert_rowid` stringified unless
the engine reported `null`/`undefined`, and the rows-affected count. -/
def prepareResultBody (r : ResultSetModel) : SocketResult :=
  { cols := r.columns.enum.map (fun p =>
      { name := p.2, decltype := r.columnTypes.getD p.1 none })
    rows := r.rows.map (serializeRow r.columns)
    last_insert_rowid := r.lastInsertRowid.map Int.repr
    affected_row_count := r.rowsAffected }

/-- A JSON frame sent on the socket by `MessageHandler`. -/
inductive OutFrame where
  | hello_ok
  | hello_error (message : String) (code : String)
  | response_ok_open (request_id : Nat)
  | response_ok_execute (request_id : Nat) (result : SocketResult)
  | response_error (request_id : Nat) (message : String)
deriving DecidableEq, Repr

/-- The request id a frame carries, if any. -/
def frameRequestId : OutFrame → Option Nat
  | .hello_ok => none
  | .hello_error _ _ => none
  | .response_ok_open rid => some rid
  | .response_ok_execute rid _ => some rid
  | .response_error rid _ => some rid

/-- The payload the source passes to the engine:
`db.execute({ sql: body.stmt.sql, args: body.stmt.args.map((arg) => arg.value) })`. -/
structure EngineCall where
  sql : String
  args : List JsValue
deriving DecidableEq, Repr

/-- The engine as the socket handler consumes it: for a call it yields
the latency of the asynchronous `execute` (in abstract ticks) and its
outcome — a result set, or an error whose `message` the catch branch
reads. -/
def Engine : Type := EngineCall → Nat × Except String ResultSetModel

/-- The engine call extracted from an execute request body — exactly the
fields of the request that reach the engine. -/
def executeCallPayload (stmt : Stmt) : EngineCall :=
  { sql := stmt.sql, args := stmt.args.map (fun a => a.value) }

/-! ## Event-loop model of the socket message pipeline

In the source, `MessageHandler` keeps `this.current`, initialized to
`Promise.resolve()`, and `push` is

  `push(handler) { this.current.then(handler); }`

The result of `.then` is discarded and `this.current` is never
reassigned, so every pushed handler is chained onto the original,
already-resolved promise: each message's handler STARTS as soon as the
message arrives, whether or not earlier handlers have settled, and a
handler's rejection is unobservable to every other handler.

The model below runs a burst of messages that arrive back-to-back (all
before any engine call completes): every handler starts at time 0 and
runs to its engine `await` (execute requests) or to completion (all
other messages, whose sends are synchronous and appear in arrival
order); then engine calls resolve in order of their finish times, ties
in arrival order — the JavaScript event-loop behaviour of this code —
and each resumed execute handler sends its response (or, if the engine
call failed, the `response_error` built by the catch branch). -/

/-- An execute handler suspended at `await db.execute(...)`. -/
structure WaitingCall where
  finishAt : Nat
  requestId : Nat
  outcome : Except String ResultSetModel
deriving Repr

/-- The frame an execute handler sends when its engine call settles:
the success envelope from `prepareResult`, or the error envelope built
in the catch branch from the echoed request id and `e.message`. -/
def respOf (w : WaitingCall) : OutFrame :=
  match w.outcome with
  | .ok r => .response_ok_execute w.requestId (prepareResultBody r)
  | .error m => .response_error w.requestId m

/-- State of the connection's event loop: frames already sent, engine
calls in flight, and the number of handler promises that were rejected
(`handleAuth` throws after sending `hello_error`; nothing in the source
observes these rejections, because `push` discards the chained
promise). -/
structure LoopState where
  out : List OutFrame
  waiting : List WaitingCall
  rejections : Nat
deriving Repr

/-- `handleMessage` run to its first suspension point, for a message
arriving at time 0 (back-to-back burst):

* `hello` — `handleAuth`: send `hello_ok` when the presented jwt equals
  the process token, otherwise send `hello_error` with code
  `AUTH_JWT_INVALID` and throw (reject this handler's promise);
* `open_stream` — send `response_ok` with an `open_stream` response;
* `close_stream` — no-op;
* `execute` — start `db.execute` with the sql and the argument VALUES
  (tags dropped), and suspend until the engine call settles. -/
def startMessage (db : Engine) (token : String) (st : LoopState) :
    Message → LoopState
  | .hello jwt =>
    if jwt = token then { st with out := st.out ++ [.hello_ok] }
    else
      { st with
          out := st.out ++
            [.hello_error "Authentication failed: The JWT is invalid"
              "AUTH_JWT_INVALID"]
          rejections := st.rejections + 1 }
  | .request rid body =>
    match body with
    | .open_stream _ => { st with out := st.out ++ [.response_ok_open rid] }
    | .close_stream _ => st
    | .execute _ stmt =>
      let call := db (executeCallPayload stmt)
      { st with
          waiting := st.waiting ++ [⟨call.1, rid, call.2⟩] }

/-- Earliest finish time among the in-flight engine calls. -/
def minFinish : List WaitingCall → Option Nat
  | [] => none
  | w :: ws =>
    match minFinish ws with
    | none => some w.finishAt
    | some m => some (min w.finishAt m)

/-- Resolve engine calls in completion order: at each step the calls
with the earliest finish time resume (in arrival order) and send their
responses; the fuel bounds the number of distinct finish times and is
instantiated with the number of in-flight calls. -/
def runTicks : Nat → List WaitingCall → List OutFrame
  | 0, _ => []
  | fuel + 1, ws =>
    match minFinish ws with
    | none => []
    | some t =>
      (ws.filter (fun w => w.finishAt == t)).map respOf ++
        runTicks fuel (ws.filter (fun w => w.finishAt != t))

/-- Start every handler of a back-to-back burst of messages, in arrival
order (each `socket.on("message")` callback pushes a handler, and
`push` schedules it on the permanently-resolved `this.current`). -/
def connectionStart (db : Engine) (token : String) (msgs : List Message) :
    LoopState :=
  msgs.foldl (startMessage db token) ⟨[], [], 0⟩

/-- All frames the connection sends for a back-to-back burst: the
synchronous sends in arrival order, then the execute responses in
engine-completion order. -/
def connectionRun (db : Engine) (token : String) (msgs : List Message) :
    List OutFrame :=
  let st := connectionStart db token msgs
  st.out ++ runTicks st.waiting.length st.waiting

/-! ## HTTP variant endpoint (`POST /query` in `src/studio.ts`) -/

/-- A JavaScript error as the catch branch consumes it: its `message`,
and its `data` property — `some (type, id)` when the thrown object
carries a `data` object with those fields, `none` when it does not.
Errors thrown by the client library's `execute`/`batch` carry no `data`
property. -/
structure JsError where
  message : String
  data : Option (String × Nat)
deriving DecidableEq, Repr

/-- The parsed body of a `POST /query` request. -/
inductive QueryBody where
  | query (id : Nat) (statement : String)
  | transaction (id : Nat) (statements : List String)
deriving DecidableEq, Repr

/-- `data` of a successful HTTP reply: a single `Result` for `query`,
an array of `Result`s for `transaction`. -/
inductive HttpData where
  | single (r : HttpResult)
  | multi (rs : List HttpResult)
deriving DecidableEq, Repr

/-- The JSON object a `POST /query` handler run sends. -/
inductive HttpReply where
  | success (type : String) (id : Nat) (data : HttpData)
  | failure (type : String) (id : Nat) (error : String)
deriving DecidableEq, Repr

/-- The catch branch of the `POST /query` handler:

  `return res.json({ type: e.data.type, id: e.data.id, error: e.message })`

It reads `type` and `id` from the caught error's `data` property, not
from the request body.  When the error has no `data` property,
`e.data.type` itself throws a `TypeError`, the handler's own promise
rejects, and no JSON reply is sent — modelled by the `Except.error`
outcome carrying the runtime error (message quoting elided). -/
def catchBranch (e : JsError) : Except String HttpReply :=
  match e.data with
  | some d => .ok (.failure d.1 d.2 e.message)
  | none =>
    .error "TypeError: Cannot read properties of undefined (reading type)"

/-- The `POST /query` handler of `src/studio.ts`, parameterized by the
engine's `execute` and `batch` operations: a `query` body runs one
statement and replies with its transformed result, a `transaction` body
runs the batch and replies with the list of transformed results; any
throw reaches the catch branch.  `Except.error` means the handler run
itself threw and no JSON reply was produced. -/
def postQuery (execFn : String → Except JsError ResultSetModel)
    (batchFn : List String → Except JsError (List ResultSetModel)) :
    QueryBody → Except String HttpReply
  | .query i stmt =>
    match execFn stmt with
    | .ok r => .ok (.success "query" i (.single (transformRawResult r)))
    | .error e => catchBranch e
  | .transaction i stmts =>
    match batchFn stmts with
    | .ok rs => .ok (.success "transaction" i (.multi (rs.map transformRawResult)))
    | .error e => catchBranch e

/-! ## Concrete inputs used by evaluations and witnesses -/

/-- A result set with `n` columns all named "a" (no rows). -/
def dupColsInput (n : Nat) : ResultSetModel :=
  ⟨List.replicate n "a", List.replicate n none, [], 0, none⟩

/-- A one-column result set (the result of the slow statement). -/
def rsSlow : ResultSetModel := ⟨["x"], [some "INT"], [[.vnum 1]], 0, none⟩

/-- A one-column result set (the result of the fast statement). -/
def rsFast : ResultSetModel := ⟨["y"], [some "INT"], [[.vnum 2]], 0, none⟩

/-- An engine whose call for the statement "SLOW" resolves after 2
ticks and whose call for anything else resolves immediately. -/
def slowFirstEngine : Engine := fun c =>
  if c.sql = "SLOW" then (2, .ok rsSlow) else (0, .ok rsFast)

/-- An execute request with the given id and SQL text on stream 1. -/
def execMsg (rid : Nat) (sql : String) : Message :=
  .request rid (.execute 1 ⟨sql, [], [], true⟩)

/-- An engine that rejects the statement "BAD" and resolves anything
else immediately. -/
def failBadEngine : Engine := fun c =>
  if c.sql = "BAD" then (0, .error "no such table: bad") else (0, .ok rsFast)

/-- A result set with two columns both named "a" whose single row holds
two DIFFERENT values. -/
def dupValsInput : ResultSetModel :=
  ⟨["a", "a"], [none, none], [[.vnum 1, .vnum 2]], 0, none⟩

/-- A result set for which the engine reports a last-inserted row id. -/
def rsWithId : ResultSetModel := ⟨["x"], [some "INT"], [], 1, some 42⟩

/-! ## Lemmas about the deduplication loop -/

theorem buildHeadersGo_map_displayName (pairs : List (String × Option String)) :
    ∀ headerSet : List String,
      (buildHeadersGo headerSet pairs).map (fun h => h.displayName) =
        pairs.map Prod.fst := by
  induction pairs with
  | nil => intro set; rfl
  | cons p rest ih =>
    intro set
    cases p with
    | mk colName colType => simp [buildHeadersGo, ih]

theorem colTypePairs_map_fst (raw : ResultSetModel) :
    (colTypePairs raw).map Prod.fst = raw.columns := by
  have h : (colTypePairs raw).map Prod.fst = raw.columns.enum.map Prod.snd := by
    simp only [colTypePairs, List.map_map]
    rfl
  rw [h, List.enum_map_snd]

theorem colTypePairs_length (raw : ResultSetModel) :
    (colTypePairs raw).length = raw.columns.length := by
  simp [colTypePairs, List.enum_length]

/-- The candidate non-membership test of the loop
(`!headerSet.has(renameColName)`). -/
def freshIn (headerSet : List String) (x : String) : Bool :=
  decide (x ∉ headerSet)

/-- Characterization of the rename loop: with `fuel + 1` iterations left
at counter `i`, it returns the first candidate among `cur`,
`suffixName colName i`, …, `suffixName colName (i + fuel - 1)` that is
not yet in the set, and `suffixName colName (i + fuel)` — the last
attempted name — if every checked candidate was taken. -/
theorem renameFrom_eq_find (headerSet : List String) (colName : String) :
    ∀ (fuel i : Nat) (cur : String),
      renameFrom headerSet colName (fuel + 1) i cur =
        ((cur :: (List.range fuel).map (fun k => suffixName colName (i + k))).find?
            (freshIn headerSet)).getD (suffixName colName (i + fuel)) := by
  intro fuel
  induction fuel with
  | zero =>
    intro i cur
    by_cases hcur : cur ∈ headerSet <;>
      simp [renameFrom, freshIn, hcur]
  | succ fuel ih =>
    intro i cur
    by_cases hcur : cur ∈ headerSet
    · have hrange : (List.range (fuel + 1)).map (fun k => suffixName colName (i + k)) =
          suffixName colName i ::
            (List.range fuel).map (fun k => suffixName colName (i + 1 + k)) := by
        rw [List.range_succ_eq_map, List.map_cons, List.map_map]
        refine congrArg₂ _ (by simp) ?_
        refine List.map_congr_left ?_
        intro k _
        simp only [Function.comp_apply]
        exact congrArg _ (by omega)
      conv_rhs => rw [List.find?_cons_of_neg _ (by simp [freshIn, hcur]), hrange]
      rw [renameFrom, if_pos hcur, ih (i + 1) (suffixName colName i),
        show i + (fuel + 1) = i + 1 + fuel from by omega]
    · rw [renameFrom, if_neg hcur,
        List.find?_cons_of_pos _ (by simp [freshIn, hcur])]
      rfl

/-- The rename loop checks the original name and the 19 first suffix
candidates in order, keeps the first that is unused, and keeps the 20th
suffix candidate unchecked when all checked ones were used. -/
theorem renameLoop_eq_find (headerSet : List String) (colName : String) :
    renameLoop headerSet colName =
      ((colName :: (List.range 19).map (suffixName colName)).find?
          (freshIn headerSet)).getD (suffixName colName 19) := by
  have h := renameFrom_eq_find headerSet colName 19 0 colName
  simpa [renameLoop] using h

theorem string_append_cancel {a s t : String} (h : a ++ s = a ++ t) : s = t := by
  have hd := congrArg String.data h
  rw [String.data_append, String.data_append] at hd
  exact String.ext (List.append_cancel_left hd)

theorem nat_repr_inj_lt :
    ∀ i < 20, ∀ j < 20, Nat.repr i = Nat.repr j → i = j := by decide

theorem suffixName_ne_base (c : String) (i : Nat) : suffixName c i ≠ c := by
  intro h
  have hl := congrArg String.length h
  have h2 : ("__" : String).length = 2 := rfl
  have h1 : ("_" : String).length = 1 := rfl
  rw [suffixName, String.length_append, String.length_append,
    String.length_append, h2, h1] at hl
  omega

theorem suffixName_inj_lt (c : String) :
    ∀ i < 20, ∀ j < 20, suffixName c i = suffixName c j → i = j := by
  intro i hi j hj h
  rw [suffixName, suffixName] at h
  exact nat_repr_inj_lt i hi j hj (string_append_cancel h)

/-- The 21 candidate names of one column (the original name and the 20
suffix candidates) are pairwise distinct. -/
theorem suffixCands_nodup (c : String) :
    (c :: (List.range 20).map (suffixName c)).Nodup := by
  rw [List.nodup_cons]
  constructor
  · intro hmem
    rcases List.mem_map.mp hmem with ⟨k, _, hk⟩
    exact suffixName_ne_base c k hk
  · refine List.Nodup.map_on ?_ (List.nodup_range 20)
    intro i hi j hj h
    exact suffixName_inj_lt c i (List.mem_range.mp hi) j (List.mem_range.mp hj) h

/-- Freshness: as long as at most 20 distinct names have been assigned,
the rename loop returns a name that is not yet in the set. -/
theorem renameLoop_not_mem (headerSet : List String) (c : String)
    (hlen : headerSet.length ≤ 20) :
    renameLoop headerSet c ∉ headerSet := by
  rw [renameLoop_eq_find]
  cases hf : (c :: (List.range 19).map (suffixName c)).find? (freshIn headerSet) with
  | some x =>
    have hx := List.find?_some hf
    simp only [freshIn, decide_eq_true_eq] at hx
    simpa using hx
  | none =>
    simp only [Option.getD_none]
    intro hmem
    have hall := List.find?_eq_none.mp hf
    simp only [freshIn, decide_eq_true_eq, not_not] at hall
    have hsub : (c :: (List.range 20).map (suffixName c)) ⊆ headerSet := by
      intro x hx
      rcases List.mem_cons.mp hx with h | h
      · exact h ▸ hall c (List.mem_cons_self c _)
      · rcases List.mem_map.mp h with ⟨k, hk, rfl⟩
        have hk20 := List.mem_range.mp hk
        by_cases hk19 : k < 19
        · exact hall _ (List.mem_cons_of_mem _
            (List.mem_map.mpr ⟨k, List.mem_range.mpr hk19, rfl⟩))
        · have : k = 19 := by omega
          exact this ▸ hmem
    have h21 := List.Subperm.length_le (List.subperm_of_subset (suffixCands_nodup c) hsub)
    simp at h21
    omega

/-- Main invariant of the header fold: starting from a duplicate-free
set, as long as the set plus the remaining columns hold at most 21
names, all assigned names (old and new) stay pairwise distinct. -/
theorem buildHeadersGo_names_nodup :
    ∀ (pairs : List (String × Option String)) (headerSet : List String),
      headerSet.Nodup → headerSet.length + pairs.length ≤ 21 →
      (headerSet ++ (buildHeadersGo headerSet pairs).map (fun h => h.name)).Nodup := by
  intro pairs
  induction pairs with
  | nil =>
    intro set hnd _
    simpa [buildHeadersGo] using hnd
  | cons p rest ih =>
    intro set hnd hlen
    cases p with
    | mk colName colType =>
      have hfresh : renameLoop set colName ∉ set :=
        renameLoop_not_mem set colName (by simp at hlen; omega)
      have hnd2 : (set ++ [renameLoop set colName]).Nodup := by
        simp [List.nodup_append, hnd, hfresh]
      have hlen2 : (set ++ [renameLoop set colName]).length + rest.length ≤ 21 := by
        simp at hlen ⊢
        omega
      have h := ih (set ++ [renameLoop set colName]) hnd2 hlen2
      simp only [buildHeadersGo, List.map_cons]
      rw [List.append_cons]
      exact h

/-! ## Lemmas about the event-loop model -/

theorem startMessage_waiting_mono (db : Engine) (token : String) (st : LoopState)
    (m : Message) (w : WaitingCall) (hw : w ∈ st.waiting) :
    w ∈ (startMessage db token st m).waiting := by
  cases m with
  | hello jwt =>
    by_cases h : jwt = token <;> simp [startMessage, h, hw]
  | request rid body =>
    cases body with
    | execute sid stmt =>
      simp only [startMessage]
      exact List.mem_append_left _ hw
    | open_stream sid => simpa [startMessage] using hw
    | close_stream sid => simpa [startMessage] using hw

theorem foldl_waiting_mono (db : Engine) (token : String) :
    ∀ (msgs : List Message) (st : LoopState) (w : WaitingCall), w ∈ st.waiting →
      w ∈ (msgs.foldl (startMessage db token) st).waiting := by
  intro msgs
  induction msgs with
  | nil => intro st w hw; exact hw
  | cons m rest ih =>
    intro st w hw
    exact ih _ w (startMessage_waiting_mono db token st m w hw)

theorem foldl_waiting_of_mem (db : Engine) (token : String) :
    ∀ (msgs : List Message) (st : LoopState) (rid sid : Nat) (stmt : Stmt),
      Message.request rid (.execute sid stmt) ∈ msgs →
      (⟨(db (executeCallPayload stmt)).1, rid, (db (executeCallPayload stmt)).2⟩ :
          WaitingCall) ∈ (msgs.foldl (startMessage db token) st).waiting := by
  intro msgs
  induction msgs with
  | nil => intro st rid sid stmt h; cases h
  | cons m rest ih =>
    intro st rid sid stmt h
    simp only [List.foldl_cons]
    rcases List.mem_cons.mp h with h | h
    · apply foldl_waiting_mono
      rw [← h]
      simp only [startMessage]
      exact List.mem_append_right _ (List.mem_singleton.mpr rfl)
    · exact ih _ rid sid stmt h

theorem minFinish_eq_none : ∀ ws : List WaitingCall, minFinish ws = none ↔ ws = [] := by
  intro ws
  cases ws with
  | nil => simp [minFinish]
  | cons w ws =>
    simp only [minFinish]
    cases minFinish ws <;> simp

theorem minFinish_attained :
    ∀ (ws : List WaitingCall) (t : Nat), minFinish ws = some t →
      ∃ w ∈ ws, w.finishAt = t := by
  intro ws
  induction ws with
  | nil => intro t h; cases h
  | cons w ws ih =>
    intro t h
    cases hm : minFinish ws with
    | none =>
      rw [minFinish, hm] at h
      exact ⟨w, List.mem_cons_self _ _, (Option.some.inj h)⟩
    | some m =>
      rw [minFinish, hm] at h
      have ht : t = min w.finishAt m := (Option.some.inj h).symm
      rcases le_total w.finishAt m with hle | hle
      · exact ⟨w, List.mem_cons_self _ _, by rw [ht, min_eq_left hle]⟩
      · rcases ih m hm with ⟨w2, hw2, hfin⟩
        exact ⟨w2, List.mem_cons_of_mem _ hw2, by rw [ht, min_eq_right hle, hfin]⟩

/-- Every suspended execute handler eventually resumes and sends its
response, provided the fuel is at least the number of suspended
handlers (each round retires at least one). -/
theorem runTicks_serves :
    ∀ (fuel : Nat) (ws : List WaitingCall), ws.length ≤ fuel →
      ∀ w ∈ ws, respOf w ∈ runTicks fuel ws := by
  intro fuel
  induction fuel with
  | zero =>
    intro ws hlen w hw
    have : ws = [] := List.eq_nil_of_length_eq_zero (by omega)
    subst this
    cases hw
  | succ fuel ih =>
    intro ws hlen w hw
    cases hm : minFinish ws with
    | none =>
      have : ws = [] := (minFinish_eq_none ws).mp hm
      subst this
      cases hw
    | some t =>
      simp only [runTicks, hm]
      by_cases hwt : w.finishAt = t
      · refine List.mem_append_left _ ?_
        exact List.mem_map_of_mem respOf (List.mem_filter.mpr ⟨hw, by simp [hwt]⟩)
      · refine List.mem_append_right _ ?_
        have hwf : w ∈ ws.filter (fun w => w.finishAt != t) :=
          List.mem_filter.mpr ⟨hw, by simp [hwt]⟩
        rcases minFinish_attained ws t hm with ⟨w0, hw0, hfin⟩
        have hlt : (ws.filter (fun w => w.finishAt != t)).length < ws.length :=
          List.length_filter_lt_length_iff_exists.mpr ⟨w0, hw0, by simp [hfin]⟩
        exact ih _ (by omega) w hwf

/-- Connection-level service guarantee: every execute request in a
burst gets its response frame (ok or error as the engine call decided)
somewhere in the connection's output. -/
theorem connectionRun_serves (db : Engine) (token : String) (msgs : List Message)
    (rid sid : Nat) (stmt : Stmt)
    (h : Message.request rid (.execute sid stmt) ∈ msgs) :
    respOf ⟨(db (executeCallPayload stmt)).1, rid, (db (executeCallPayload stmt)).2⟩ ∈
      connectionRun db token msgs := by
  have hw := foldl_waiting_of_mem db token msgs ⟨[], [], 0⟩ rid sid stmt h
  exact List.mem_append_right _ (runTicks_serves _ _ (le_refl _) _ hw)

/-! ## Lemmas about socket row serialization -/

theorem getD_map_lt {α β : Type} (f : α → β) :
    ∀ (l : List α) (j : Nat) (d : β) (d0 : α), j < l.length →
      (l.map f).getD j d = f (l.getD j d0) := by
  intro l
  induction l with
  | nil => intro j d d0 hj; simp at hj
  | cons a l ih =>
    intro j d d0 hj
    cases j with
    | zero => simp
    | succ j =>
      simp only [List.map_cons, List.getD_cons_succ]
      exact ih j d d0 (by simp at hj; omega)

theorem rowLookup_getD :
    ∀ (cols : List String) (row : List JsValue) (j : Nat),
      cols.Nodup → row.length = cols.length → j < cols.length →
      rowLookup cols row (cols.getD j "") = row.getD j .vnull := by
  intro cols
  induction cols with
  | nil => intro row j _ _ hj; simp at hj
  | cons c cs ih =>
    intro row j hnd hlen hj
    cases row with
    | nil => simp at hlen
    | cons v vs =>
      cases j with
      | zero => simp [rowLookup]
      | succ j =>
        have hjlt : j < cs.length := by simp at hj; omega
        have hne : c ≠ cs.getD j "" := by
          intro heq
          have hmem : cs.getD j "" ∈ cs := by
            rw [List.getD_eq_getElem cs "" hjlt]
            exact List.getElem_mem hjlt
          exact (List.nodup_cons.mp hnd).1 (heq ▸ hmem)
        simp only [List.getD_cons_succ]
        rw [rowLookup, if_neg hne]
        exact ih vs j (List.nodup_cons.mp hnd).2 (by simp at hlen; omega) hjlt

theorem serializeRow_getD (cols : List String) (row : List JsValue) (j : Nat)
    (hj : j < cols.length) :
    (serializeRow cols row).getD j ⟨"", .vnull⟩ =
      { type := getValueType (rowLookup cols row (cols.getD j ""))
        value := rowLookup cols row (cols.getD j "") } := by
  rw [serializeRow]
  exact getD_map_lt _ cols j _ "" hj

/-! ## Claim theorems -/

/-- C1: evaluation of the dispatcher at the claim's ordering scenario.
Two execute requests arrive back-to-back; request 1's engine call is
slower (2 ticks) than request 2's (immediate).  Because `push` only
does `this.current.then(handler)` and never makes the chained promise
the new tail, handler 2 starts before handler 1 settles, and the
responses are emitted as request 2 first, request 1 second — NOT in
submission order, contrary to the claimed FIFO guarantee. -/
theorem C1_fifo_dispatch_eval :
    (connectionRun slowFirstEngine "tok" [execMsg 1 "SLOW", execMsg 2 "FAST"]).map
        frameRequestId = [some 2, some 1] ∧
      ([some 2, some 1] : List (Option Nat)) ≠ [some 1, some 2] :=
  ⟨by decide, by decide⟩

/-- C2 counterexample: on a connection whose process secret is "secret"
and on which no successful `hello` ever happened, an execute request is
fully processed and answered — both with no `hello` at all and right
after a failed `hello` — refuting that requests are gated on
authentication and that a failed `hello` makes the connection
unusable. -/
theorem C2_auth_gating_cex :
    connectionRun slowFirstEngine "secret" [execMsg 5 "FAST"] =
        [.response_ok_execute 5 (prepareResultBody rsFast)] ∧
      connectionRun slowFirstEngine "secret" [.hello "wrong", execMsg 5 "FAST"] =
        [.hello_error "Authentication failed: The JWT is invalid" "AUTH_JWT_INVALID",
         .response_ok_execute 5 (prepareResultBody rsFast)] :=
  ⟨by decide, by decide⟩

/-- C2 (amended): a `hello` whose jwt equals the process secret yields
`hello_ok`; a `hello` with any other jwt yields `hello_error` with code
AUTH_JWT_INVALID and rejects that handler's promise — but the rejection
does not disable the connection, and request messages are processed
(and answered) regardless of whether any successful `hello`
occurred. -/
theorem C2_auth_gating_amended (db : Engine) (token jwt : String) :
    (jwt = token → connectionRun db token [.hello jwt] = [.hello_ok]) ∧
    (jwt ≠ token →
      connectionRun db token [.hello jwt] =
          [.hello_error "Authentication failed: The JWT is invalid"
            "AUTH_JWT_INVALID"] ∧
        (connectionStart db token [.hello jwt]).rejections = 1) ∧
    ∀ (msgs : List Message) (rid sid : Nat) (stmt : Stmt),
      Message.request rid (.execute sid stmt) ∈ msgs →
      respOf ⟨(db (executeCallPayload stmt)).1, rid, (db (executeCallPayload stmt)).2⟩ ∈
        connectionRun db token msgs := by
  refine ⟨?_, ?_, ?_⟩
  · intro h
    subst h
    simp [connectionRun, connectionStart, startMessage, runTicks]
  · intro h
    constructor <;>
      simp [connectionRun, connectionStart, startMessage, runTicks, h]
  · intro msgs rid sid stmt h
    exact connectionRun_serves db token msgs rid sid stmt h

theorem C2_auth_gating_amended_witness :
    connectionRun slowFirstEngine "secret" [.hello "secret"] = [.hello_ok] ∧
      connectionRun slowFirstEngine "secret" [.hello "wrong"] =
        [.hello_error "Authentication failed: The JWT is invalid"
          "AUTH_JWT_INVALID"] ∧
      respOf ⟨(slowFirstEngine (executeCallPayload ⟨"FAST", [], [], true⟩)).1, 5,
          (slowFirstEngine (executeCallPayload ⟨"FAST", [], [], true⟩)).2⟩ ∈
        connectionRun slowFirstEngine "secret" [execMsg 5 "FAST"] :=
  ⟨(C2_auth_gating_amended slowFirstEngine "secret" "secret").1 rfl,
   ((C2_auth_gating_amended slowFirstEngine "secret" "wrong").2.1 (by decide)).1,
   (C2_auth_gating_amended slowFirstEngine "secret" "wrong").2.2
     [execMsg 5 "FAST"] 5 1 ⟨"FAST", [], [], true⟩ (by decide)⟩

/-- C3: evaluation of the `POST /query` handler when the engine call
throws.  Engine errors carry no `data` property, so the catch branch's
`e.data.type` access itself throws and NO JSON reply is produced, in
particular not the claimed `{type, id, error}` envelope echoing the
request's type and id. -/
theorem C3_http_error_envelope_eval :
    postQuery (fun _ => .error ⟨"no such table: bad", none⟩)
        (fun _ => .error ⟨"no such table: bad", none⟩)
        (.query 7 "SELECT * FROM bad") =
      .error "TypeError: Cannot read properties of undefined (reading type)" ∧
    postQuery (fun _ => .error ⟨"no such table: bad", none⟩)
        (fun _ => .error ⟨"no such table: bad", none⟩)
        (.query 7 "SELECT * FROM bad") ≠
      .ok (.failure "query" 7 "no such table: bad") :=
  ⟨rfl, fun h => Except.noConfusion h⟩

/-- C4 counterexample: a result set whose 22 columns are all named "a"
drives the 22nd column's rename loop past the 20-attempt bound; it
keeps the last attempted name `__a_19`, which the 21st column already
took, so the produced schema names are NOT pairwise distinct. -/
theorem C4_schema_unique_cex :
    ¬ ((transformRawResult (dupColsInput 22)).headers.map (fun h => h.name)).Nodup := by
  decide

/-- C4 (amended): for every input result set with at most 21 columns,
the deduplicated name fields in the schema produced by
`transformRawResult` are pairwise distinct. -/
theorem C4_schema_unique_amended (raw : ResultSetModel)
    (h : raw.columns.length ≤ 21) :
    ((transformRawResult raw).headers.map (fun h => h.name)).Nodup := by
  have hh : (transformRawResult raw).headers = headersOf raw := rfl
  have h2 := buildHeadersGo_names_nodup (colTypePairs raw) [] (by simp)
    (by rw [colTypePairs_length]; simpa using h)
  rw [hh, headersOf]
  simpa using h2

theorem C4_schema_unique_amended_witness :
    (dupColsInput 21).columns.length ≤ 21 ∧
      ((transformRawResult (dupColsInput 21)).headers.map (fun h => h.name)).Nodup :=
  ⟨by decide, C4_schema_unique_amended (dupColsInput 21) (by decide)⟩

/-- C5: the deduplication algorithm.  Columns ["a","a","a"] produce
schema keys ["a","__a_0","__a_1"]; 21 identical columns end with the
last attempted name `__a_19` of the 20-attempt bound and are not
disambiguated further; the loop returns the first candidate among the
original name and suffix candidates `__<original>_<i>` (i increasing
from 0) that is not yet assigned, keeping the last attempted suffix
when all checked candidates were taken; and every entry's displayName
equals the original column name. -/
theorem C5_dedup_algorithm :
    (transformRawResult (dupColsInput 3)).headers.map (fun h => h.name) =
        ["a", "__a_0", "__a_1"] ∧
      (transformRawResult (dupColsInput 21)).headers.map (fun h => h.name) =
        "a" :: (List.range 20).map (suffixName "a") ∧
      (∀ (headerSet : List String) (colName : String),
        renameLoop headerSet colName =
          ((colName :: (List.range 19).map (suffixName colName)).find?
              (freshIn headerSet)).getD (suffixName colName 19)) ∧
      ∀ raw : ResultSetModel,
        (transformRawResult raw).headers.map (fun h => h.displayName) = raw.columns := by
  refine ⟨by decide, by decide, renameLoop_eq_find, ?_⟩
  intro raw
  have hh : (transformRawResult raw).headers = headersOf raw := rfl
  rw [hh, headersOf, buildHeadersGo_map_displayName, colTypePairs_map_fst]

/-- C6: type normalization follows SQLite affinity with the source's
check order: any of CHAR/TEXT/CLOB/STRING in the uppercased declared
type gives TEXT; otherwise INT gives INTEGER; otherwise BLOB gives
BLOB; otherwise REAL/DOUBLE/FLOAT gives REAL; an undefined declared
type gives BLOB; anything else gives TEXT; and a declared type
containing both INT and CHAR resolves to TEXT because the TEXT-family
checks come first. -/
theorem C6_type_normalization (t : String) :
    ((strContains (jsToUpper t) "CHAR" || strContains (jsToUpper t) "TEXT" ||
        strContains (jsToUpper t) "CLOB" || strContains (jsToUpper t) "STRING") = true →
      convertSqliteType (some t) = .TEXT) ∧
    ((strContains (jsToUpper t) "CHAR" || strContains (jsToUpper t) "TEXT" ||
        strContains (jsToUpper t) "CLOB" || strContains (jsToUpper t) "STRING") = false →
      strContains (jsToUpper t) "INT" = true →
      convertSqliteType (some t) = .INTEGER) ∧
    ((strContains (jsToUpper t) "CHAR" || strContains (jsToUpper t) "TEXT" ||
        strContains (jsToUpper t) "CLOB" || strContains (jsToUpper t) "STRING") = false →
      strContains (jsToUpper t) "INT" = false →
      strContains (jsToUpper t) "BLOB" = true →
      convertSqliteType (some t) = .BLOB) ∧
    ((strContains (jsToUpper t) "CHAR" || strContains (jsToUpper t) "TEXT" ||
        strContains (jsToUpper t) "CLOB" || strContains (jsToUpper t) "STRING") = false →
      strContains (jsToUpper t) "INT" = false →
      strContains (jsToUpper t) "BLOB" = false →
      (strContains (jsToUpper t) "REAL" || strContains (jsToUpper t) "DOUBLE" ||
        strContains (jsToUpper t) "FLOAT") = true →
      convertSqliteType (some t) = .REAL) ∧
    convertSqliteType none = .BLOB ∧
    ((strContains (jsToUpper t) "CHAR" || strContains (jsToUpper t) "TEXT" ||
        strContains (jsToUpper t) "CLOB" || strContains (jsToUpper t) "STRING") = false →
      strContains (jsToUpper t) "INT" = false →
      strContains (jsToUpper t) "BLOB" = false →
      (strContains (jsToUpper t) "REAL" || strContains (jsToUpper t) "DOUBLE" ||
        strContains (jsToUpper t) "FLOAT") = false →
      convertSqliteType (some t) = .TEXT) ∧
    (strContains (jsToUpper t) "INT" = true →
      strContains (jsToUpper t) "CHAR" = true →
      convertSqliteType (some t) = .TEXT) := by
  refine ⟨?_, ?_, ?_, ?_, rfl, ?_, ?_⟩
  · intro h
    simp only [Bool.or_eq_true] at h
    rcases h with ((h | h) | h) | h <;> simp [convertSqliteType, h]
  · intro h hint
    simp only [Bool.or_eq_false_iff] at h
    simp [convertSqliteType, h.1.1.1, h.1.1.2, h.1.2, h.2, hint]
  · intro h hint hblob
    simp only [Bool.or_eq_false_iff] at h
    simp [convertSqliteType, h.1.1.1, h.1.1.2, h.1.2, h.2, hint, hblob]
  · intro h hint hblob hreal
    simp only [Bool.or_eq_false_iff] at h
    simp only [Bool.or_eq_true] at hreal
    simp [convertSqliteType, h.1.1.1, h.1.1.2, h.1.2, h.2, hint, hblob, hreal]
  · intro h hint hblob hreal
    simp only [Bool.or_eq_false_iff] at h hreal
    simp [convertSqliteType, h.1.1.1, h.1.1.2, h.1.2, h.2, hint, hblob,
      hreal.1.1, hreal.1.2, hreal.2]
  · intro hint hchar
    simp [convertSqliteType, hchar]

theorem C6_type_normalization_witness :
    convertSqliteType (some "VARCHAR(10)") = .TEXT ∧
      convertSqliteType (some "INTEGER") = .INTEGER ∧
      convertSqliteType (some "DOUBLE") = .REAL ∧
      convertSqliteType none = .BLOB ∧
      convertSqliteType (some "BLOB") = .BLOB ∧
      convertSqliteType (some "INTCHAR") = .TEXT :=
  ⟨(C6_type_normalization "VARCHAR(10)").1 (by decide),
   (C6_type_normalization "INTEGER").2.1 (by decide) (by decide),
   (C6_type_normalization "DOUBLE").2.2.2.1 (by decide) (by decide) (by decide)
     (by decide),
   (C6_type_normalization "x").2.2.2.2.1,
   (C6_type_normalization "BLOB").2.2.1 (by decide) (by decide) (by decide),
   (C6_type_normalization "INTCHAR").2.2.2.2.2.2 (by decide) (by decide)⟩

/-- C7: for every execute request whose engine call throws, the handler
catches the error locally (no handler promise is rejected, unlike
authentication failure) and the connection's output contains a
`response_error` envelope with the echoed request id and the error's
message; and every other execute request on the same connection is
still handled — a failing request never terminates the connection. -/
theorem C7_execute_error_recovery (db : Engine) (token : String)
    (msgs : List Message) (rid sid : Nat) (stmt : Stmt) (emsg : String)
    (hmem : Message.request rid (.execute sid stmt) ∈ msgs)
    (herr : (db (executeCallPayload stmt)).2 = .error emsg) :
    OutFrame.response_error rid emsg ∈ connectionRun db token msgs ∧
    (∀ st : LoopState,
      (startMessage db token st (.request rid (.execute sid stmt))).rejections =
        st.rejections) ∧
    ∀ (rid2 sid2 : Nat) (stmt2 : Stmt) (r2 : ResultSetModel),
      Message.request rid2 (.execute sid2 stmt2) ∈ msgs →
      (db (executeCallPayload stmt2)).2 = .ok r2 →
      OutFrame.response_ok_execute rid2 (prepareResultBody r2) ∈
        connectionRun db token msgs := by
  refine ⟨?_, ?_, ?_⟩
  · have h := connectionRun_serves db token msgs rid sid stmt hmem
    simp only [herr, respOf] at h
    exact h
  · intro st
    simp [startMessage]
  · intro rid2 sid2 stmt2 r2 hmem2 hok
    have h := connectionRun_serves db token msgs rid2 sid2 stmt2 hmem2
    simp only [hok, respOf] at h
    exact h

theorem C7_execute_error_recovery_witness :
    OutFrame.response_error 9 "no such table: bad" ∈
        connectionRun failBadEngine "tok" [execMsg 9 "BAD", execMsg 10 "FAST"] ∧
      OutFrame.response_ok_execute 10 (prepareResultBody rsFast) ∈
        connectionRun failBadEngine "tok" [execMsg 9 "BAD", execMsg 10 "FAST"] :=
  ⟨(C7_execute_error_recovery failBadEngine "tok"
      [execMsg 9 "BAD", execMsg 10 "FAST"] 9 1 ⟨"BAD", [], [], true⟩
      "no such table: bad" (by decide) rfl).1,
   (C7_execute_error_recovery failBadEngine "tok"
      [execMsg 9 "BAD", execMsg 10 "FAST"] 9 1 ⟨"BAD", [], [], true⟩
      "no such table: bad" (by decide) rfl).2.2 10 1 ⟨"FAST", [], [], true⟩
      rsFast (by decide) rfl⟩

/-- C8: the last-inserted-row id diverges by transport.  When the
engine reports an id, the socket variant serializes it as its decimal
string and the HTTP variant carries it as a plain number; when the
engine reports none, the socket variant sends null (`none`) and the
HTTP variant omits the field (`none`). -/
theorem C8_rowid_representation (r : ResultSetModel) :
    (∀ v : Int, r.lastInsertRowid = some v →
      (prepareResultBody r).last_insert_rowid = some (Int.repr v) ∧
        (transformRawResult r).lastInsertRowid = some v) ∧
    (r.lastInsertRowid = none →
      (prepareResultBody r).last_insert_rowid = none ∧
        (transformRawResult r).lastInsertRowid = none) := by
  constructor
  · intro v hv
    constructor
    · simp [prepareResultBody, hv]
    · simp [transformRawResult, hv]
  · intro hv
    constructor
    · simp [prepareResultBody, hv]
    · simp [transformRawResult, hv]

theorem C8_rowid_representation_witness :
    (prepareResultBody rsWithId).last_insert_rowid = some "42" ∧
      (transformRawResult rsWithId).lastInsertRowid = some 42 ∧
      (prepareResultBody rsFast).last_insert_rowid = none ∧
      (transformRawResult rsFast).lastInsertRowid = none :=
  ⟨((C8_rowid_representation rsWithId).1 42 rfl).1,
   ((C8_rowid_representation rsWithId).1 42 rfl).2,
   ((C8_rowid_representation rsFast).2 rfl).1,
   ((C8_rowid_representation rsFast).2 rfl).2⟩

/-- C9 counterexample: the socket serializer reads row values by column
NAME, so with two columns both named "a" holding the values 1 and 2,
cell 1 of the serialized row carries the value 1 of the FIRST column
named "a", not the value 2 that column 1 actually holds — refuting
positional alignment for duplicate column names. -/
theorem C9_row_serialization_cex :
    (prepareResultBody dupValsInput).rows =
        [[{ type := "float", value := .vnum 1 },
          { type := "float", value := .vnum 1 }]] ∧
      (dupValsInput.rows.getD 0 []).getD 1 .vnull = .vnum 2 ∧
      JsValue.vnum 1 ≠ JsValue.vnum 2 :=
  ⟨by decide, by decide, by decide⟩

/-- C9 (amended): for result sets whose column names are pairwise
distinct (and whose rows are aligned with the columns), each serialized
socket row is positionally aligned — cell j holds the value of column j
of that row — and each cell's tag follows `getValueType`: "text" for
strings, "float" for numbers, "null" for null, "text" for any other
runtime value. -/
theorem C9_row_serialization_amended (raw : ResultSetModel) (i j : Nat)
    (hnd : raw.columns.Nodup)
    (hrows : ∀ r ∈ raw.rows, r.length = raw.columns.length)
    (hi : i < raw.rows.length) (hj : j < raw.columns.length) :
    ((prepareResultBody raw).rows.getD i []).getD j ⟨"", .vnull⟩ =
      { type := getValueType ((raw.rows.getD i []).getD j .vnull)
        value := (raw.rows.getD i []).getD j .vnull } ∧
    (∀ s, getValueType (.vstr s) = "text") ∧
    (∀ q, getValueType (.vnum q) = "float") ∧
    getValueType .vnull = "null" ∧
    getValueType .vother = "text" := by
  refine ⟨?_, fun s => rfl, fun q => rfl, rfl, rfl⟩
  have hrowmem : raw.rows.getD i [] ∈ raw.rows := by
    rw [List.getD_eq_getElem raw.rows [] hi]
    exact List.getElem_mem hi
  have hlen : (raw.rows.getD i []).length = raw.columns.length := hrows _ hrowmem
  have h1 : (prepareResultBody raw).rows.getD i [] =
      serializeRow raw.columns (raw.rows.getD i []) := by
    have h0 : (prepareResultBody raw).rows = raw.rows.map (serializeRow raw.columns) :=
      rfl
    rw [h0]
    exact getD_map_lt _ raw.rows i _ [] hi
  rw [h1, serializeRow_getD raw.columns _ j hj,
    rowLookup_getD raw.columns _ j hnd hlen hj]

theorem C9_row_serialization_amended_witness :
    ((prepareResultBody rsSlow).rows.getD 0 []).getD 0 ⟨"", .vnull⟩ =
      { type := getValueType ((rsSlow.rows.getD 0 []).getD 0 .vnull)
        value := (rsSlow.rows.getD 0 []).getD 0 .vnull } :=
  (C9_row_serialization_amended rsSlow 0 0 (by decide) (by decide) (by decide)
    (by decide)).1

/-- C10: the socket execute handler passes only the SQL text and the
VALUES of the positional arguments to the engine; the per-argument type
tags, the named_args list and the want_rows flag have no effect — two
execute requests agreeing on sql and argument values produce the same
engine call payload and, in any position of any burst, the same
connection output. -/
theorem C10_ignored_fields (s1 s2 : Stmt) (hsql : s1.sql = s2.sql)
    (hvals : s1.args.map (fun a => a.value) = s2.args.map (fun a => a.value)) :
    executeCallPayload s1 = executeCallPayload s2 ∧
    ∀ (db : Engine) (token : String) (pre post : List Message) (rid sid : Nat),
      connectionRun db token (pre ++ [.request rid (.execute sid s1)] ++ post) =
        connectionRun db token (pre ++ [.request rid (.execute sid s2)] ++ post) := by
  have hpay : executeCallPayload s1 = executeCallPayload s2 := by
    simp [executeCallPayload, hsql, hvals]
  refine ⟨hpay, ?_⟩
  intro db token pre post rid sid
  have hstep : ∀ st : LoopState,
      startMessage db token st (.request rid (.execute sid s1)) =
        startMessage db token st (.request rid (.execute sid s2)) := by
    intro st
    simp [startMessage, hpay]
  simp only [connectionRun, connectionStart, List.foldl_append, List.foldl_cons,
    List.foldl_nil, hstep]

theorem C10_ignored_fields_witness :
    executeCallPayload ⟨"SELECT 1", [⟨"integer", .vnum 1⟩], [], true⟩ =
        executeCallPayload ⟨"SELECT 1", [⟨"float", .vnum 1⟩], [.vnull], false⟩ ∧
      connectionRun slowFirstEngine "tok"
          ([] ++ [.request 3 (.execute 1 ⟨"SELECT 1", [⟨"integer", .vnum 1⟩], [], true⟩)]
            ++ []) =
        connectionRun slowFirstEngine "tok"
          ([] ++ [.request 3 (.execute 1 ⟨"SELECT 1", [⟨"float", .vnum 1⟩], [.vnull],
            false⟩)] ++ []) :=
  ⟨(C10_ignored_fields _ _ rfl rfl).1,
   (C10_ignored_fields _ _ rfl rfl).2 slowFirstEngine "tok" [] [] 3 1⟩

end SqlStudio
